import Mathlib

/-!
Shallow embedding of the Jeeves wake-word scripts
(`scripts/wake_listener.py` and `scripts/wake_score_stdin.py`).

Byte streams are lists of naturals (each < 256), scores and clock readings
are rationals, and the opaque scorer (`openwakeword` `Model.predict`) is an
oracle supplied per loop iteration.  Each iteration of the Python `while`
loop is an `Iter`: the result of `sys.stdin.buffer.read(2560)` (bytes or a
raised exception), the scorer's response for that frame (a keyword-to-score
map or a raised exception), and in listener mode the two wall-clock readings
`time.time()` taken in the guard (`t1`) and in the assignment to `last_wake`
(`t2`).  Program-visible behaviour is a `Run`: the stdout lines, the stderr
lines written by the program itself, and how the process exits — `Exit.normal c`
for `sys.exit(c)` or falling off `main`, `Exit.uncaught e` for an exception
that escapes `main` (Python then prints a raw traceback and exits non-zero).
-/

namespace Jeeves

/-- Fixed tunable: bytes per frame (`chunk_bytes = 2560` in both scripts). -/
def chunk_bytes : Nat := 2560

/-- Fixed tunable: samples per frame (the `!= 1280` check in both scripts). -/
def frame_samples : Nat := 1280

/-- Fixed tunable: detection threshold (`threshold = 0.5`, listener line 51). -/
def threshold : ℚ := 1/2

/-- Fixed tunable: debounce interval (`debounce_seconds = 2.5`, listener line 52). -/
def debounce_seconds : ℚ := 5/2

/-- Reinterpret a 16-bit unsigned value as a signed 16-bit integer, as
`np.frombuffer(raw, dtype=np.int16)` does for each two-byte group. -/
def toSigned16 (v : Nat) : Int :=
  if v < 32768 then (v : Int) else (v : Int) - 65536

/-- Decode a byte list as little-endian signed 16-bit samples
(`np.frombuffer(raw, dtype=np.int16)`); a trailing odd byte is dropped. -/
def bytesToSamples : List Nat → List Int
  | b0 :: b1 :: rest => toSigned16 (b0 + 256 * b1) :: bytesToSamples rest
  | _ => []

/-- Normalize one sample: `samples.astype(np.float32) / 32768.0`.  Every value
`k / 32768` with `|k| ≤ 32768` is exactly representable in float32, so the
rational model is exact. -/
def normalizeSample (s : Int) : ℚ := (s : ℚ) / 32768

/-- The Sample Converter: bytes to normalized float samples
(`samples_f = samples.astype(np.float32) / 32768.0`). -/
def normalizeBlock (raw : List Nat) : List ℚ :=
  (bytesToSamples raw).map normalizeSample

/-- Exceptions that can be raised inside the processing loop. -/
inductive Exn
  | brokenPipe
  | keyboardInterrupt
  | other (msg : String)
deriving DecidableEq, Repr

/-- Result of one `sys.stdin.buffer.read(chunk_bytes)` call: bytes returned,
or an exception raised during the read. -/
inductive ReadRes
  | ok (raw : List Nat)
  | exn (e : Exn)
deriving DecidableEq, Repr

/-- Result of one `model.predict(samples_f)` call: a keyword-to-score map,
or an exception raised by the scorer. -/
inductive PredRes
  | ok (pred : List (String × ℚ))
  | exn (e : Exn)
deriving DecidableEq, Repr

/-- One iteration of the `while True` loop: the read result, the scorer
response (consulted only if a full frame was read), and the two `time.time()`
readings of the listener (`t1` in the debounce guard, `t2` stored into
`last_wake`; scoring mode ignores both). -/
structure Iter where
  read : ReadRes
  pred : PredRes
  t1 : ℚ
  t2 : ℚ
deriving DecidableEq, Repr

/-- Look up the active keyword's score: `predictions.get(model_name, 0.0)`. -/
def getScore (pred : List (String × ℚ)) (name : String) : ℚ :=
  match pred.find? (fun p => p.1 == name) with
  | some p => p.2
  | none => 0

/-- The active model name in the listener: `"hey_jeeves"` if `model.models`
is empty, otherwise the first key (lines 45-48 of `wake_listener.py`). -/
def activeName : List String → String
  | [] => "hey_jeeves"
  | n :: _ => n

/-- A wake event emitted by the listener: the iteration index, the frame's
active-keyword score, and the timestamp stored into `last_wake` (the second
`time.time()` reading, taken just before `WAKE` is printed). -/
structure WakeEvent where
  idx : Nat
  score : ℚ
  time : ℚ
deriving DecidableEq, Repr

/-- The listener's `while True` loop (lines 56-69 of `wake_listener.py`),
with state `last` (= `last_wake`) and the running iteration index.  Returns
the emitted wake events and the exception, if any, that escaped the loop
body (to be handled by the surrounding `try`). -/
def listenLoop (name : String) : List Iter → ℚ → Nat → List WakeEvent × Option Exn
  | [], _, _ => ([], none)
  | it :: rest, last, i =>
    match it.read with
    | ReadRes.exn e => ([], some e)
    | ReadRes.ok raw =>
      if raw.length < chunk_bytes then ([], none)
      else if (bytesToSamples raw).length ≠ frame_samples then
        listenLoop name rest last (i + 1)
      else
        match it.pred with
        | PredRes.exn e => ([], some e)
        | PredRes.ok pred =>
          let score := getScore pred name
          if threshold ≤ score ∧ debounce_seconds ≤ it.t1 - last then
            let r := listenLoop name rest it.t2 (i + 1)
            (⟨i, score, it.t2⟩ :: r.1, r.2)
          else
            listenLoop name rest last (i + 1)

/-- The scoring script's `while True` loop (lines 26-37 of
`wake_score_stdin.py`), with state `m` (= `max_score`).  Returns the final
running maximum and the exception, if any, that escaped the loop body
(there is no surrounding `try` in this script). -/
def scoreLoop (name : String) : List Iter → ℚ → ℚ × Option Exn
  | [], m => (m, none)
  | it :: rest, m =>
    match it.read with
    | ReadRes.exn e => (m, some e)
    | ReadRes.ok raw =>
      if raw.length < chunk_bytes then (m, none)
      else if (bytesToSamples raw).length ≠ frame_samples then
        scoreLoop name rest m
      else
        match it.pred with
        | PredRes.exn e => (m, some e)
        | PredRes.ok pred =>
          let s := getScore pred name
          scoreLoop name rest (if m < s then s else m)

/-- The (index, active-keyword score) pairs of exactly those frames that
reach `model.predict` and receive a score, mirroring the branch structure of
both loops (the two loops score the same frames). -/
def scoredList (name : String) : List Iter → Nat → List (Nat × ℚ)
  | [], _ => []
  | it :: rest, i =>
    match it.read with
    | ReadRes.exn _ => []
    | ReadRes.ok raw =>
      if raw.length < chunk_bytes then []
      else if (bytesToSamples raw).length ≠ frame_samples then
        scoredList name rest (i + 1)
      else
        match it.pred with
        | PredRes.exn _ => []
        | PredRes.ok pred => (i, getScore pred name) :: scoredList name rest (i + 1)

/-- A line on the primary output channel: the literal `WAKE` token or a
`MAX <value>` line carrying the formatted running maximum. -/
inductive OutLine
  | wake
  | maxLine (v : ℚ)
deriving DecidableEq, Repr

/-- How the process ends: `sys.exit(code)` / falling off `main` (`normal`),
or an exception escaping `main` (`uncaught`: Python prints a raw stack trace
and the interpreter exits non-zero). -/
inductive Exit
  | normal (code : Nat)
  | uncaught (e : Exn)
deriving DecidableEq, Repr

/-- Observable behaviour of one process invocation: stdout lines, stderr
lines written by the program itself, and the exit. -/
structure Run where
  out : List OutLine
  err : List String
  exit : Exit
deriving DecidableEq, Repr

/-- The literal usage error of `wake_listener.py` line 26. -/
def usageMsg : String :=
  "WAKE_LISTENER_ERROR: need model path (e.g. scripts/wake_listener.py models/wake/hey_jeeves.onnx)"

/-- The literal dependency error of `wake_listener.py` line 33. -/
def depMsg : String :=
  "WAKE_LISTENER_ERROR: install openwakeword and numpy: pip install openwakeword onnxruntime numpy"

/-- Function `main` of `wake_listener.py`.  `argv1` is `sys.argv[1]` if present,
`depsOk` is whether `import numpy` / `import openwakeword` succeeds, `load`
is the outcome of `Model([model_path])` (error message, or the keys of
`model.models`), and `iters` drives the loop.  `last_wake` starts at `0.0`
(line 53).  `BrokenPipeError` and `KeyboardInterrupt` from the loop are
swallowed (`pass`); any other exception is reported as
`WAKE_LISTENER_ERROR: <e>` on stderr followed by `sys.exit(1)`. -/
def listener_main (argv1 : Option String) (depsOk : Bool)
    (load : Except String (List String)) (iters : List Iter) : Run :=
  match argv1 with
  | none => ⟨[], [usageMsg], Exit.normal 1⟩
  | some _ =>
    if depsOk then
      match load with
      | Except.error cause =>
        ⟨[], ["WAKE_LISTENER_ERROR: failed to load model: " ++ cause], Exit.normal 1⟩
      | Except.ok names =>
        let r := listenLoop (activeName names) iters 0 0
        let outs := r.1.map (fun _ => OutLine.wake)
        match r.2 with
        | none => ⟨outs, [], Exit.normal 0⟩
        | some Exn.brokenPipe => ⟨outs, [], Exit.normal 0⟩
        | some Exn.keyboardInterrupt => ⟨outs, [], Exit.normal 0⟩
        | some (Exn.other msg) =>
          ⟨outs, ["WAKE_LISTENER_ERROR: " ++ msg], Exit.normal 1⟩
    else ⟨[], [depMsg], Exit.normal 1⟩

/-- Function `main` of `wake_score_stdin.py`.  With no argument, or when
`Model([model_path])` raises, it prints `MAX 0.0` on stdout and exits 1.
`model_name = list(model.models.keys())[0]` raises `IndexError` when the
key set is empty.  The loop has no surrounding `try`: an exception escaping
it is an unhandled crash.  On normal stream end the single line
`MAX <max_score>` is printed and the process exits 0. -/
def score_main (argv1 : Option String)
    (load : Except String (List String)) (iters : List Iter) : Run :=
  match argv1 with
  | none => ⟨[OutLine.maxLine 0], [], Exit.normal 1⟩
  | some _ =>
    match load with
    | Except.error _ => ⟨[OutLine.maxLine 0], [], Exit.normal 1⟩
    | Except.ok [] => ⟨[], [], Exit.uncaught (Exn.other "IndexError")⟩
    | Except.ok (n :: _) =>
      let r := scoreLoop n iters 0
      match r.2 with
      | some e => ⟨[], [], Exit.uncaught e⟩
      | none => ⟨[OutLine.maxLine r.1], [], Exit.normal 0⟩

/-- A byte list of `n` repetitions of the two-byte (little-endian) group
`b0, b1`; used to build concrete full-size frames. -/
def repPair (b0 b1 : Nat) : Nat → List Nat
  | 0 => []
  | n + 1 => b0 :: b1 :: repPair b0 b1 n

/-- A concrete full 2560-byte all-zero block. -/
def fullBlock : List Nat := repPair 0 0 1280

/-- A concrete iteration: full frame, scorer returns 1.0 for `hey_jeeves`,
clock reads 3.0 at both calls. -/
def hotIter : Iter :=
  ⟨ReadRes.ok fullBlock, PredRes.ok [("hey_jeeves", 1)], 3, 3⟩

/-- A concrete iteration like `hotIter` but with the clock at 10.0. -/
def hotIter2 : Iter :=
  ⟨ReadRes.ok fullBlock, PredRes.ok [("hey_jeeves", 1)], 10, 10⟩

/-- A concrete iteration whose read raises `KeyboardInterrupt`. -/
def kbIter : Iter := ⟨ReadRes.exn Exn.keyboardInterrupt, PredRes.ok [], 0, 0⟩

/-- A concrete iteration whose read raises an unexpected exception. -/
def boomIter : Iter := ⟨ReadRes.exn (Exn.other "boom"), PredRes.ok [], 0, 0⟩

/-- A concrete iteration whose read returns a 1-byte (short) block. -/
def shortIter : Iter := ⟨ReadRes.ok [0], PredRes.ok [("hey_jeeves", 1)], 3, 3⟩

set_option maxRecDepth 8000

theorem repPair_length (b0 b1 : Nat) : ∀ n, (repPair b0 b1 n).length = 2 * n
  | 0 => rfl
  | n + 1 => by
    rw [repPair]
    simp [repPair_length b0 b1 n]
    omega

theorem repPair_mem (b0 b1 : Nat) : ∀ n, ∀ b ∈ repPair b0 b1 n, b = b0 ∨ b = b1
  | 0 => by simp [repPair]
  | n + 1 => by
    intro b hb
    rw [repPair] at hb
    rcases List.mem_cons.mp hb with rfl | hb
    · exact Or.inl rfl
    rcases List.mem_cons.mp hb with rfl | hb
    · exact Or.inr rfl
    · exact repPair_mem b0 b1 n b hb

theorem bytesToSamples_repPair (b0 b1 : Nat) :
    ∀ n, bytesToSamples (repPair b0 b1 n) =
      List.replicate n (toSigned16 (b0 + 256 * b1))
  | 0 => rfl
  | n + 1 => by
    rw [repPair, bytesToSamples, bytesToSamples_repPair b0 b1 n]
    rfl

/-- C1 counterexample: with no model-path argument, the scoring script does
write to stdout — the line `MAX 0.0` — before exiting with status 1
(`wake_score_stdin.py` lines 15-17), contradicting the claim that nothing is
written to the primary output channel in either mode. -/
theorem spec_c1_counterexample :
    (score_main none (Except.ok []) []).out = [OutLine.maxLine 0] ∧
      (score_main none (Except.ok []) []).out ≠ [] ∧
      (score_main none (Except.ok []) []).exit = Exit.normal 1 :=
  ⟨rfl, by decide, rfl⟩

/-- C1 amended: with no model-path argument both scripts exit with status 1;
the listener writes nothing to stdout (a usage message goes to stderr), while
the scoring script writes the single line `MAX 0.0` to stdout before
exiting. -/
theorem spec_c1_amended (depsOk : Bool) (load load2 : Except String (List String))
    (iters iters2 : List Iter) :
    listener_main none depsOk load iters = ⟨[], [usageMsg], Exit.normal 1⟩ ∧
      score_main none load2 iters2 = ⟨[OutLine.maxLine 0], [], Exit.normal 1⟩ :=
  ⟨rfl, rfl⟩

/-- C9: when model loading fails, the listener reports the underlying cause
inlined in a `WAKE_LISTENER_ERROR: failed to load model: <cause>` stderr
message and exits 1 with an empty stdout, while the scoring script emits the
parseable line `MAX 0.0` on stdout and exits 1.  Both results are the same
for every `iters`, i.e. the process exits before reading any frame. -/
theorem spec_c9 (p cause : String) (iters iters2 : List Iter) :
    listener_main (some p) true (Except.error cause) iters =
        ⟨[], ["WAKE_LISTENER_ERROR: failed to load model: " ++ cause], Exit.normal 1⟩ ∧
      score_main (some p) (Except.error cause) iters2 =
        ⟨[OutLine.maxLine 0], [], Exit.normal 1⟩ :=
  ⟨rfl, rfl⟩

/-- Evaluation of the listener loop on the single hot frame `hotIter`:
one wake event at index 0 with score 1 and timestamp 3. -/
theorem listenLoop_hotIter :
    listenLoop "hey_jeeves" [hotIter] 0 0 = ([⟨0, 1, 3⟩], none) := by
  simp [listenLoop, hotIter, fullBlock, repPair_length, bytesToSamples_repPair,
    getScore, List.find?, threshold, debounce_seconds, chunk_bytes, frame_samples]
  norm_num

/-- Evaluation of the scoring loop on the single hot frame `hotIter`. -/
theorem scoreLoop_hotIter :
    scoreLoop "hey_jeeves" [hotIter] 0 = (1, none) := by
  simp [scoreLoop, hotIter, fullBlock, repPair_length, bytesToSamples_repPair,
    getScore, List.find?, threshold, debounce_seconds, chunk_bytes, frame_samples]

/-- Evaluation of the scored-frame list on the single hot frame `hotIter`. -/
theorem scoredList_hotIter :
    scoredList "hey_jeeves" [hotIter] 0 = [(0, 1)] := by
  simp [scoredList, hotIter, fullBlock, repPair_length, bytesToSamples_repPair,
    getScore, List.find?, chunk_bytes, frame_samples]

/-- C4: the listener never emits a wake event whose active-keyword score is
strictly below the 0.5 threshold — every emitted event's score satisfies
`threshold ≤ score`, where the score was read from the score map with
default 0.0 (`predictions.get(model_name, 0.0)`). -/
theorem spec_c4 (name : String) :
    ∀ (iters : List Iter) (last : ℚ) (i : Nat),
      ∀ e ∈ (listenLoop name iters last i).1, threshold ≤ e.score
  | [], _, _ => by simp [listenLoop]
  | it :: rest, last, i => by
    rw [listenLoop]
    cases hread : it.read with
    | exn e2 => simp
    | ok raw =>
      dsimp only
      split
      · simp
      · split
        · exact spec_c4 name rest last (i + 1)
        · cases hpred : it.pred with
          | exn e2 => simp
          | ok pred =>
            dsimp only
            split
            · rename_i hcond
              intro e he
              dsimp only at he
              rcases List.mem_cons.mp he with rfl | hmem
              · exact hcond.1
              · exact spec_c4 name rest it.t2 (i + 1) e hmem
            · exact spec_c4 name rest last (i + 1)

/-- C4 witness: on the concrete run `[hotIter]` the single emitted event has
score 1, and the theorem yields `threshold ≤ 1`. -/
theorem spec_c4_witness :
    (⟨0, 1, 3⟩ : WakeEvent) ∈ (listenLoop "hey_jeeves" [hotIter] 0 0).1 ∧
      threshold ≤ (⟨0, 1, 3⟩ : WakeEvent).score :=
  have hmem : (⟨0, 1, 3⟩ : WakeEvent) ∈ (listenLoop "hey_jeeves" [hotIter] 0 0).1 := by
    rw [listenLoop_hotIter]
    exact List.mem_singleton.mpr rfl
  ⟨hmem, spec_c4 "hey_jeeves" [hotIter] 0 0 ⟨0, 1, 3⟩ hmem⟩

/-- Appending anything after a short read changes nothing in the scoring
loop: the loop breaks at the short read. -/
theorem scoreLoop_append_short (name : String) (it : Iter) (raw : List Nat)
    (hread : it.read = ReadRes.ok raw) (hshort : raw.length < chunk_bytes) :
    ∀ (pre post : List Iter) (m : ℚ),
      scoreLoop name (pre ++ it :: post) m = scoreLoop name pre m
  | [], post, m => by
    simp only [List.nil_append, scoreLoop, hread]
    simp [hshort]
  | p :: pre, post, m => by
    rw [List.cons_append, scoreLoop, scoreLoop]
    cases hp : p.read with
    | exn e => rfl
    | ok praw =>
      dsimp only
      split
      · rfl
      · split
        · exact scoreLoop_append_short name it raw hread hshort pre post m
        · cases hpred : p.pred with
          | exn e => rfl
          | ok pred =>
            dsimp only
            exact scoreLoop_append_short name it raw hread hshort pre post _

/-- Appending anything after a short read changes nothing in the listener
loop: the loop breaks at the short read. -/
theorem listenLoop_append_short (name : String) (it : Iter) (raw : List Nat)
    (hread : it.read = ReadRes.ok raw) (hshort : raw.length < chunk_bytes) :
    ∀ (pre post : List Iter) (last : ℚ) (i : Nat),
      listenLoop name (pre ++ it :: post) last i = listenLoop name pre last i
  | [], post, last, i => by
    simp only [List.nil_append, listenLoop, hread]
    simp [hshort]
  | p :: pre, post, last, i => by
    rw [List.cons_append, listenLoop, listenLoop]
    cases hp : p.read with
    | exn e => rfl
    | ok praw =>
      dsimp only
      split
      · rfl
      · split
        · exact listenLoop_append_short name it raw hread hshort pre post last (i + 1)
        · cases hpred : p.pred with
          | exn e => rfl
          | ok pred =>
            dsimp only
            split
            · rw [listenLoop_append_short name it raw hread hshort pre post p.t2 (i + 1)]
            · exact listenLoop_append_short name it raw hread hshort pre post last (i + 1)

/-- C6: in both modes, a read that returns fewer than 2560 bytes (any count
from 0 to 2559) terminates the loop at that point: the partial block is never
converted or scored (its `pred` field is never consulted) and no later read
(`post`) is ever combined with it — the run equals the run on `pre` alone. -/
theorem spec_c6 (name : String) (pre post : List Iter) (it : Iter) (raw : List Nat)
    (m last : ℚ) (i : Nat)
    (hread : it.read = ReadRes.ok raw) (hshort : raw.length < chunk_bytes) :
    scoreLoop name (pre ++ it :: post) m = scoreLoop name pre m ∧
      listenLoop name (pre ++ it :: post) last i = listenLoop name pre last i :=
  ⟨scoreLoop_append_short name it raw hread hshort pre post m,
   listenLoop_append_short name it raw hread hshort pre post last i⟩

/-- C6 witness: a concrete 1-byte read after one full frame ends both loops;
the trailing full frame after it is ignored. -/
theorem spec_c6_witness :
    shortIter.read = ReadRes.ok [0] ∧ ([0] : List Nat).length < chunk_bytes ∧
      (scoreLoop "hey_jeeves" ([hotIter] ++ shortIter :: [hotIter2]) 0 =
          scoreLoop "hey_jeeves" [hotIter] 0 ∧
        listenLoop "hey_jeeves" ([hotIter] ++ shortIter :: [hotIter2]) 0 0 =
          listenLoop "hey_jeeves" [hotIter] 0 0) :=
  ⟨rfl, by norm_num [chunk_bytes],
   spec_c6 "hey_jeeves" [hotIter] [hotIter2] shortIter [0] 0 0 0 rfl
     (by norm_num [chunk_bytes])⟩


/-- C3: debounce invariant of the listener.  Assuming only that the clock is
monotone within each iteration (the guard's `time.time()` reading `t1` is at
most the stored reading `t2`), consecutive emitted wake events are at least
`debounce_seconds` (2.5 s) apart in the stored wall-clock timestamps,
regardless of how many intervening frames scored at or above threshold; in
the model, `last_wake` is updated to the event's `time` field exactly when
the event is emitted, and every event is at least 2.5 s after the incoming
`last` value. -/
theorem spec_c3 (name : String) (iters : List Iter) (last : ℚ) (i : Nat)
    (h : ∀ it ∈ iters, it.t1 ≤ it.t2) :
    List.Chain' (fun a b : WakeEvent => debounce_seconds ≤ b.time - a.time)
        (listenLoop name iters last i).1 ∧
      ∀ e ∈ (listenLoop name iters last i).1, last + debounce_seconds ≤ e.time := by
  revert h
  induction iters generalizing last i with
  | nil => intro h; simp [listenLoop]
  | cons it rest ih =>
    intro h
    have ht : it.t1 ≤ it.t2 := h it (List.mem_cons_self it rest)
    have hrest : ∀ x ∈ rest, x.t1 ≤ x.t2 := fun x hx => h x (List.mem_cons_of_mem _ hx)
    rw [listenLoop]
    cases hread : it.read with
    | exn e2 => simp
    | ok raw =>
      dsimp only
      split
      · simp
      · split
        · exact ih last (i + 1) hrest
        · cases hpred : it.pred with
          | exn e2 => simp
          | ok pred =>
            dsimp only
            split
            · rename_i hcond
              obtain ⟨ihchain, ihbound⟩ := ih it.t2 (i + 1) hrest
              dsimp only
              constructor
              · refine List.chain'_cons'.mpr ⟨?_, ihchain⟩
                intro b hb
                have hbmem : b ∈ (listenLoop name rest it.t2 (i + 1)).1 :=
                  List.mem_of_mem_head? hb
                have := ihbound b hbmem
                dsimp only
                linarith
              · intro e he
                rcases List.mem_cons.mp he with rfl | hmem
                · dsimp only
                  linarith [hcond.2]
                · have h1 := ihbound e hmem
                  have hd : (0:ℚ) ≤ debounce_seconds := by norm_num [debounce_seconds]
                  have h2 : last + debounce_seconds ≤ it.t2 := by linarith [hcond.2]
                  linarith
            · exact ih last (i + 1) hrest

/-- With `last_wake` initialized to 0 and every clock reading at least
`debounce_seconds`, the first scored frame whose score reaches the threshold
is emitted as the head wake event — the debounce guard cannot suppress it. -/
theorem listenLoop_firstHot (name : String) :
    ∀ (iters : List Iter) (i0 : Nat),
      (∀ it ∈ iters, debounce_seconds ≤ it.t1) →
      ∀ (i : Nat) (s : ℚ),
        (scoredList name iters i0).find? (fun p => decide (threshold ≤ p.2)) = some (i, s) →
        ∃ t, ((listenLoop name iters 0 i0).1).head? = some ⟨i, s, t⟩
  | [], i0 => by simp [scoredList]
  | it :: rest, i0 => by
    intro h i s hfind
    have ht : debounce_seconds ≤ it.t1 := h it (List.mem_cons_self it rest)
    have hrest : ∀ x ∈ rest, debounce_seconds ≤ x.t1 :=
      fun x hx => h x (List.mem_cons_of_mem _ hx)
    rw [scoredList] at hfind
    rw [listenLoop]
    cases hread : it.read with
    | exn e2 =>
      rw [hread] at hfind
      simp at hfind
    | ok raw =>
      rw [hread] at hfind
      dsimp only at hfind ⊢
      by_cases h1 : raw.length < chunk_bytes
      · rw [if_pos h1] at hfind
        simp at hfind
      · rw [if_neg h1] at hfind ⊢
        by_cases h2 : (bytesToSamples raw).length ≠ frame_samples
        · rw [if_pos h2] at hfind ⊢
          exact listenLoop_firstHot name rest (i0 + 1) hrest i s hfind
        · rw [if_neg h2] at hfind ⊢
          cases hpred : it.pred with
          | exn e2 =>
            rw [hpred] at hfind
            simp at hfind
          | ok pred =>
            rw [hpred] at hfind
            dsimp only at hfind ⊢
            by_cases h3 : threshold ≤ getScore pred name
            · rw [List.find?_cons_of_pos _ (by simpa using h3)] at hfind
              rw [Option.some.injEq] at hfind
              obtain ⟨h5, h6⟩ := Prod.mk.injEq .. |>.mp hfind
              subst h5
              subst h6
              rw [if_pos ⟨h3, by rw [sub_zero]; exact ht⟩]
              exact ⟨it.t2, rfl⟩
            · rw [List.find?_cons_of_neg _ (by simpa using h3)] at hfind
              rw [if_neg (fun hc => h3 hc.1)]
              exact listenLoop_firstHot name rest (i0 + 1) hrest i s hfind

/-- C3 witness: a concrete run with two hot frames at times 3 and 10
instantiates the debounce-gap theorem. -/
theorem spec_c3_witness :
    (∀ it ∈ [hotIter, hotIter2], it.t1 ≤ it.t2) ∧
      (List.Chain' (fun a b : WakeEvent => debounce_seconds ≤ b.time - a.time)
          (listenLoop "hey_jeeves" [hotIter, hotIter2] 0 0).1 ∧
        ∀ e ∈ (listenLoop "hey_jeeves" [hotIter, hotIter2] 0 0).1,
          0 + debounce_seconds ≤ e.time) :=
  ⟨by decide, spec_c3 "hey_jeeves" [hotIter, hotIter2] 0 0 (by decide)⟩

/-- C10: `last_wake` is initialized to the number `0.0` (line 53 of
`wake_listener.py`), not a distinguished sentinel; hence whenever every clock
reading is at least 2.5 (always true of wall-clock time), the first scored
frame whose active-keyword score reaches 0.5 is emitted immediately as the
very first wake event — the debounce condition never suppresses the first
emission. -/
theorem spec_c10 (name : String) (iters : List Iter) (i : Nat) (s : ℚ)
    (h : ∀ it ∈ iters, debounce_seconds ≤ it.t1)
    (hfind : (scoredList name iters 0).find?
        (fun p => decide (threshold ≤ p.2)) = some (i, s)) :
    ∃ t, ((listenLoop name iters 0 0).1).head? = some ⟨i, s, t⟩ :=
  listenLoop_firstHot name iters 0 h i s hfind

/-- C10 witness: on the concrete run `[hotIter]` (clock at 3.0) the first
hot scored frame (index 0, score 1) is indeed the head wake event. -/
theorem spec_c10_witness :
    (∀ it ∈ [hotIter], debounce_seconds ≤ it.t1) ∧
      (scoredList "hey_jeeves" [hotIter] 0).find?
          (fun p => decide (threshold ≤ p.2)) = some (0, 1) ∧
      ∃ t, ((listenLoop "hey_jeeves" [hotIter] 0 0).1).head? = some ⟨0, 1, t⟩ :=
  have hfind : (scoredList "hey_jeeves" [hotIter] 0).find?
      (fun p => decide (threshold ≤ p.2)) = some (0, 1) := by
    rw [scoredList_hotIter, List.find?_cons_of_pos _ (by norm_num [threshold])]
  have htime : ∀ it ∈ [hotIter], debounce_seconds ≤ it.t1 := by
    norm_num [hotIter, debounce_seconds]
  ⟨htime, hfind, spec_c10 "hey_jeeves" [hotIter] 0 1 htime hfind⟩

/-- The update `if score > max_score: max_score = score` is the binary max. -/
theorem step_eq_max (m s : ℚ) : (if m < s then s else m) = max m s := by
  rcases le_or_lt s m with h | h
  · rw [if_neg (not_lt.mpr h), max_eq_left h]
  · rw [if_pos h, max_eq_right (le_of_lt h)]

/-- Folding max never goes below the starting value. -/
theorem foldl_max_le_start (m : ℚ) : ∀ l : List ℚ, m ≤ l.foldl max m
  | [] => le_refl m
  | a :: l => le_trans (le_max_left m a) (foldl_max_le_start (max m a) l)

/-- Folding max dominates every list element. -/
theorem foldl_max_le (m : ℚ) : ∀ l : List ℚ, ∀ s ∈ l, s ≤ l.foldl max m
  | [], s, hs => by simp at hs
  | a :: l, s, hs => by
    rcases List.mem_cons.mp hs with rfl | hmem
    · exact le_trans (le_max_right m s) (foldl_max_le_start (max m s) l)
    · exact foldl_max_le (max m a) l s hmem

/-- A max-fold result is the starting value or an element of the list. -/
theorem foldl_max_eq_or_mem (m : ℚ) : ∀ l : List ℚ, l.foldl max m = m ∨ l.foldl max m ∈ l
  | [] => Or.inl rfl
  | a :: l => by
    rcases foldl_max_eq_or_mem (max m a) l with h | h
    · rcases max_choice m a with hm | hm
      · exact Or.inl (by rw [List.foldl_cons, h, hm])
      · refine Or.inr ?_
        rw [List.foldl_cons, h, hm]
        exact List.mem_cons_self a l
    · exact Or.inr (List.mem_cons_of_mem a (by rwa [List.foldl_cons]))

/-- The running maximum over successive prefixes is monotone. -/
theorem foldl_max_take_succ :
    ∀ (l : List ℚ) (k : Nat) (m : ℚ),
      (l.take k).foldl max m ≤ (l.take (k + 1)).foldl max m
  | [], k, m => by simp
  | a :: l, 0, m => by
    simp
  | a :: l, k + 1, m => by
    simpa using foldl_max_take_succ l k (max m a)

/-- The scoring loop's final `max_score` is the max-fold of the scored
frames' active-keyword scores over the initial value. -/
theorem scoreLoop_fst (name : String) :
    ∀ (iters : List Iter) (m : ℚ) (i : Nat),
      (scoreLoop name iters m).1 = ((scoredList name iters i).map Prod.snd).foldl max m
  | [], m, i => rfl
  | it :: rest, m, i => by
    rw [scoreLoop, scoredList]
    cases hread : it.read with
    | exn e => simp
    | ok raw =>
      dsimp only
      split
      · simp
      · split
        · exact scoreLoop_fst name rest m (i + 1)
        · cases hpred : it.pred with
          | exn e => simp
          | ok pred =>
            dsimp only
            rw [List.map_cons, List.foldl_cons, step_eq_max]
            exact scoreLoop_fst name rest (max m (getScore pred name)) (i + 1)

/-- C2: in scoring mode, on a stream that completes without an exception and
whose scores are nonnegative (the scorer contract: confidences lie in [0,1]),
stdout carries the single line `MAX v` where `v` is 0 when no frame was
scored, dominates every scored frame's active-keyword score, and is itself
one of the scored scores when any frame was scored (i.e. `v` is exactly the
maximum, with default 0.0); moreover the running maximum, initialized to 0.0,
is monotonically non-decreasing across the stream's prefixes. -/
theorem spec_c2 (p n : String) (ns : List String) (iters : List Iter)
    (he : (scoreLoop n iters 0).2 = none)
    (hnn : ∀ s ∈ (scoredList n iters 0).map Prod.snd, (0:ℚ) ≤ s) :
    (score_main (some p) (Except.ok (n :: ns)) iters).out =
        [OutLine.maxLine (scoreLoop n iters 0).1] ∧
      ((scoredList n iters 0).map Prod.snd = [] → (scoreLoop n iters 0).1 = 0) ∧
      (∀ s ∈ (scoredList n iters 0).map Prod.snd, s ≤ (scoreLoop n iters 0).1) ∧
      ((scoredList n iters 0).map Prod.snd ≠ [] →
        (scoreLoop n iters 0).1 ∈ (scoredList n iters 0).map Prod.snd) ∧
      (∀ k : Nat,
        (((scoredList n iters 0).map Prod.snd).take k).foldl max 0 ≤
          (((scoredList n iters 0).map Prod.snd).take (k + 1)).foldl max 0) := by
  have hv := scoreLoop_fst n iters 0 0
  refine ⟨?_, ?_, ?_, ?_, ?_⟩
  · simp [score_main, he]
  · intro h0
    rw [hv, h0]
    rfl
  · intro s hs
    rw [hv]
    exact foldl_max_le 0 _ s hs
  · intro hne
    rcases foldl_max_eq_or_mem 0 ((scoredList n iters 0).map Prod.snd) with h | h
    · rw [hv, h]
      obtain ⟨s0, hs0⟩ := List.exists_mem_of_ne_nil _ hne
      have hle : s0 ≤ 0 := by
        rw [← h]
        exact foldl_max_le 0 _ s0 hs0
      have hge : (0:ℚ) ≤ s0 := hnn s0 hs0
      have hs0eq : s0 = 0 := le_antisymm hle hge
      rwa [← hs0eq]
    · rw [hv]
      exact h
  · intro k
    exact foldl_max_take_succ _ k 0

/-- C2 witness: the concrete one-hot-frame run emits `MAX 1` and satisfies
all the maximum and monotonicity properties. -/
theorem spec_c2_witness :
    (scoreLoop "hey_jeeves" [hotIter] 0).2 = none ∧
      (∀ s ∈ (scoredList "hey_jeeves" [hotIter] 0).map Prod.snd, (0:ℚ) ≤ s) ∧
      ((score_main (some "m") (Except.ok ["hey_jeeves"]) [hotIter]).out =
          [OutLine.maxLine (scoreLoop "hey_jeeves" [hotIter] 0).1] ∧
        ((scoredList "hey_jeeves" [hotIter] 0).map Prod.snd = [] →
          (scoreLoop "hey_jeeves" [hotIter] 0).1 = 0) ∧
        (∀ s ∈ (scoredList "hey_jeeves" [hotIter] 0).map Prod.snd,
          s ≤ (scoreLoop "hey_jeeves" [hotIter] 0).1) ∧
        ((scoredList "hey_jeeves" [hotIter] 0).map Prod.snd ≠ [] →
          (scoreLoop "hey_jeeves" [hotIter] 0).1 ∈
            (scoredList "hey_jeeves" [hotIter] 0).map Prod.snd) ∧
        (∀ k : Nat,
          (((scoredList "hey_jeeves" [hotIter] 0).map Prod.snd).take k).foldl max 0 ≤
            (((scoredList "hey_jeeves" [hotIter] 0).map Prod.snd).take (k + 1)).foldl max 0)) :=
  have he : (scoreLoop "hey_jeeves" [hotIter] 0).2 = none := by
    rw [scoreLoop_hotIter]
  have hnn : ∀ s ∈ (scoredList "hey_jeeves" [hotIter] 0).map Prod.snd, (0:ℚ) ≤ s := by
    rw [scoredList_hotIter]
    norm_num
  ⟨he, hnn, spec_c2 "m" "hey_jeeves" [] [hotIter] he hnn⟩

/-- A 16-bit value reinterpreted as signed lies in [-32768, 32767]. -/
theorem toSigned16_bounds (v : Nat) (h : v < 65536) :
    -32768 ≤ toSigned16 v ∧ toSigned16 v ≤ 32767 := by
  unfold toSigned16
  split <;> omega

/-- All decoded samples of a byte list lie in the signed 16-bit range. -/
theorem bytesToSamples_bounds : ∀ raw : List Nat, (∀ b ∈ raw, b < 256) →
    ∀ s ∈ bytesToSamples raw, -32768 ≤ s ∧ s ≤ 32767
  | [], _ => by simp [bytesToSamples]
  | [b], _ => by simp [bytesToSamples]
  | b0 :: b1 :: rest, h => by
    intro s hs
    rw [bytesToSamples] at hs
    rcases List.mem_cons.mp hs with rfl | hmem
    · refine toSigned16_bounds _ ?_
      have h0 := h b0 (by simp)
      have h1 := h b1 (by simp)
      omega
    · exact bytesToSamples_bounds rest (fun b hb => h b (by simp [hb])) s hmem

/-- Decoding yields one sample per two bytes. -/
theorem bytesToSamples_len : ∀ raw : List Nat, (bytesToSamples raw).length = raw.length / 2
  | [] => rfl
  | [b] => by simp [bytesToSamples]
  | b0 :: b1 :: rest => by
    rw [bytesToSamples]
    simp [bytesToSamples_len rest]
    omega

/-- Dividing a signed 16-bit sample by 32768 lands in [-1, 32767/32768]. -/
theorem normalizeSample_bounds (s : Int) (h1 : -32768 ≤ s) (h2 : s ≤ 32767) :
    -1 ≤ normalizeSample s ∧ normalizeSample s ≤ 32767/32768 ∧ normalizeSample s ≤ 1 := by
  unfold normalizeSample
  have hq1 : (-32768 : ℚ) ≤ (s : ℚ) := by exact_mod_cast h1
  have hq2 : (s : ℚ) ≤ 32767 := by exact_mod_cast h2
  refine ⟨?_, ?_, ?_⟩
  · rw [le_div_iff₀ (by norm_num : (0:ℚ) < 32768)]
    linarith
  · rw [div_le_div_iff₀ (by norm_num : (0:ℚ) < 32768) (by norm_num : (0:ℚ) < 32768)]
    linarith
  · rw [div_le_one (by norm_num : (0:ℚ) < 32768)]
    linarith

/-- C5: the Sample Converter maps every 2560-byte block (bytes < 256) to
exactly 1280 floats, each equal to its little-endian signed 16-bit sample
divided by 32768.0 and lying within [-1, 1] — more precisely within
[-1, 32767/32768] — and both endpoints are attained by concrete valid
blocks. -/
theorem spec_c5 (raw : List Nat) (h1 : raw.length = chunk_bytes)
    (h2 : ∀ b ∈ raw, b < 256) :
    ((normalizeBlock raw).length = frame_samples ∧
      ∀ x ∈ normalizeBlock raw, -1 ≤ x ∧ x ≤ 32767/32768 ∧ x ≤ 1) ∧
      ((repPair 0 128 1280).length = chunk_bytes ∧
        (-1 : ℚ) ∈ normalizeBlock (repPair 0 128 1280)) ∧
      ((repPair 255 127 1280).length = chunk_bytes ∧
        (32767/32768 : ℚ) ∈ normalizeBlock (repPair 255 127 1280)) := by
  refine ⟨⟨?_, ?_⟩, ⟨?_, ?_⟩, ⟨?_, ?_⟩⟩
  · rw [normalizeBlock, List.length_map, bytesToSamples_len, h1]
    norm_num [chunk_bytes, frame_samples]
  · intro x hx
    rw [normalizeBlock] at hx
    obtain ⟨s, hs, rfl⟩ := List.mem_map.mp hx
    exact normalizeSample_bounds s (bytesToSamples_bounds raw h2 s hs).1
      (bytesToSamples_bounds raw h2 s hs).2
  · rw [repPair_length]
    norm_num [chunk_bytes]
  · rw [normalizeBlock, bytesToSamples_repPair]
    have hs16 : toSigned16 (0 + 256 * 128) = -32768 := by norm_num [toSigned16]
    rw [hs16, List.map_replicate]
    have hn : normalizeSample (-32768) = -1 := by norm_num [normalizeSample]
    rw [hn]
    exact List.mem_replicate.mpr ⟨by norm_num, rfl⟩
  · rw [repPair_length]
    norm_num [chunk_bytes]
  · rw [normalizeBlock, bytesToSamples_repPair]
    have hs16 : toSigned16 (255 + 256 * 127) = 32767 := by norm_num [toSigned16]
    rw [hs16, List.map_replicate]
    have hn : normalizeSample 32767 = 32767/32768 := by norm_num [normalizeSample]
    rw [hn]
    exact List.mem_replicate.mpr ⟨by norm_num, rfl⟩

/-- C5 witness: the all-zero 2560-byte block satisfies the hypotheses and
the converter's length and range properties. -/
theorem spec_c5_witness :
    fullBlock.length = chunk_bytes ∧ (∀ b ∈ fullBlock, b < 256) ∧
      (((normalizeBlock fullBlock).length = frame_samples ∧
        ∀ x ∈ normalizeBlock fullBlock, -1 ≤ x ∧ x ≤ 32767/32768 ∧ x ≤ 1) ∧
        ((repPair 0 128 1280).length = chunk_bytes ∧
          (-1 : ℚ) ∈ normalizeBlock (repPair 0 128 1280)) ∧
        ((repPair 255 127 1280).length = chunk_bytes ∧
          (32767/32768 : ℚ) ∈ normalizeBlock (repPair 255 127 1280))) :=
  have hlen : fullBlock.length = chunk_bytes := by
    rw [fullBlock, repPair_length]
    norm_num [chunk_bytes]
  have hbytes : ∀ b ∈ fullBlock, b < 256 := by
    intro b hb
    rcases repPair_mem 0 0 1280 b (by rwa [fullBlock] at hb) with rfl | rfl <;> norm_num
  ⟨hlen, hbytes, spec_c5 fullBlock hlen hbytes⟩

/-- C7 counterexample: in scoring mode a `KeyboardInterrupt` raised during
the loop is NOT caught — `wake_score_stdin.py` has no `try`/`except` around
its loop, so the exception escapes `main` as an unhandled crash (raw stack
trace, non-zero interpreter exit), not a silent normal termination. -/
theorem spec_c7_counterexample :
    (score_main (some "m") (Except.ok ["hey_jeeves"]) [kbIter]).exit =
        Exit.uncaught Exn.keyboardInterrupt ∧
      (score_main (some "m") (Except.ok ["hey_jeeves"]) [kbIter]).exit ≠ Exit.normal 0 :=
  ⟨rfl, by decide⟩

/-- C7 amended: only listener mode treats a transient interruption
(`BrokenPipeError` or `KeyboardInterrupt`) as normal silent termination —
nothing on stderr and a normal exit with status 0 (lines 70-71 of
`wake_listener.py`); in scoring mode the interruption propagates out of
`main` as an unhandled exception. -/
theorem spec_c7_amended (p n : String) (names ns : List String)
    (iters iters2 : List Iter) (e e2 : Exn) :
    ((listenLoop (activeName names) iters 0 0).2 = some e →
      (e = Exn.brokenPipe ∨ e = Exn.keyboardInterrupt) →
      (listener_main (some p) true (Except.ok names) iters).err = [] ∧
        (listener_main (some p) true (Except.ok names) iters).exit = Exit.normal 0) ∧
    ((scoreLoop n iters2 0).2 = some e2 →
      (score_main (some p) (Except.ok (n :: ns)) iters2).exit = Exit.uncaught e2 ∧
        (score_main (some p) (Except.ok (n :: ns)) iters2).err = []) := by
  constructor
  · intro he hkind
    rcases hkind with rfl | rfl <;> constructor <;> simp [listener_main, he]
  · intro he2
    constructor <;> simp [score_main, he2]

/-- C7 witness: a concrete `KeyboardInterrupt` at the first read is silent
in the listener and an unhandled crash in the scoring script. -/
theorem spec_c7_witness :
    ((listenLoop (activeName ["hey_jeeves"]) [kbIter] 0 0).2 =
        some Exn.keyboardInterrupt ∧
      (Exn.keyboardInterrupt = Exn.brokenPipe ∨
        Exn.keyboardInterrupt = Exn.keyboardInterrupt) ∧
      (listener_main (some "m") true (Except.ok ["hey_jeeves"]) [kbIter]).err = [] ∧
      (listener_main (some "m") true (Except.ok ["hey_jeeves"]) [kbIter]).exit =
        Exit.normal 0) ∧
    ((scoreLoop "hey_jeeves" [kbIter] 0).2 = some Exn.keyboardInterrupt ∧
      (score_main (some "m") (Except.ok ["hey_jeeves"]) [kbIter]).exit =
        Exit.uncaught Exn.keyboardInterrupt ∧
      (score_main (some "m") (Except.ok ["hey_jeeves"]) [kbIter]).err = []) :=
  have h := spec_c7_amended "m" "hey_jeeves" ["hey_jeeves"] [] [kbIter] [kbIter]
    Exn.keyboardInterrupt Exn.keyboardInterrupt
  have h1 := h.1 rfl (Or.inr rfl)
  have h2 := h.2 rfl
  ⟨⟨rfl, Or.inr rfl, h1.1, h1.2⟩, ⟨rfl, h2.1, h2.2⟩⟩

/-- C8 counterexample: in scoring mode an unexpected exception raised while
processing a frame is NOT caught at any loop boundary — no diagnostic line is
written by the program and the process dies with an unhandled crash (raw
stack trace) instead of a clean non-zero `sys.exit`. -/
theorem spec_c8_counterexample :
    (score_main (some "m") (Except.ok ["hey_jeeves"]) [boomIter]).exit =
        Exit.uncaught (Exn.other "boom") ∧
      (score_main (some "m") (Except.ok ["hey_jeeves"]) [boomIter]).err = [] ∧
      (score_main (some "m") (Except.ok ["hey_jeeves"]) [boomIter]).exit ≠
        Exit.normal 1 :=
  ⟨rfl, rfl, by decide⟩

/-- C8 amended: only listener mode catches an unexpected per-frame exception
at the loop boundary, reports `WAKE_LISTENER_ERROR: <e>` on stderr and exits
with status 1 (lines 72-74 of `wake_listener.py`); in scoring mode the
exception propagates out of `main` as an unhandled crash with a raw stack
trace. -/
theorem spec_c8_amended (p n : String) (names ns : List String)
    (iters iters2 : List Iter) (msg msg2 : String) :
    ((listenLoop (activeName names) iters 0 0).2 = some (Exn.other msg) →
      (listener_main (some p) true (Except.ok names) iters).err =
          ["WAKE_LISTENER_ERROR: " ++ msg] ∧
        (listener_main (some p) true (Except.ok names) iters).exit = Exit.normal 1) ∧
    ((scoreLoop n iters2 0).2 = some (Exn.other msg2) →
      (score_main (some p) (Except.ok (n :: ns)) iters2).exit =
          Exit.uncaught (Exn.other msg2) ∧
        (score_main (some p) (Except.ok (n :: ns)) iters2).err = []) := by
  constructor
  · intro he
    constructor <;> simp [listener_main, he]
  · intro he2
    constructor <;> simp [score_main, he2]

/-- C8 witness: a concrete unexpected exception at the first read is
reported and fatal in the listener, and an unhandled crash in the scoring
script. -/
theorem spec_c8_witness :
    ((listenLoop (activeName ["hey_jeeves"]) [boomIter] 0 0).2 =
        some (Exn.other "boom") ∧
      (listener_main (some "m") true (Except.ok ["hey_jeeves"]) [boomIter]).err =
          ["WAKE_LISTENER_ERROR: " ++ "boom"] ∧
      (listener_main (some "m") true (Except.ok ["hey_jeeves"]) [boomIter]).exit =
        Exit.normal 1) ∧
    ((scoreLoop "hey_jeeves" [boomIter] 0).2 = some (Exn.other "boom") ∧
      (score_main (some "m") (Except.ok ["hey_jeeves"]) [boomIter]).exit =
        Exit.uncaught (Exn.other "boom") ∧
      (score_main (some "m") (Except.ok ["hey_jeeves"]) [boomIter]).err = []) :=
  have h := spec_c8_amended "m" "hey_jeeves" ["hey_jeeves"] [] [boomIter] [boomIter]
    "boom" "boom"
  have h1 := h.1 rfl
  have h2 := h.2 rfl
  ⟨⟨rfl, h1.1, h1.2⟩, ⟨rfl, h2.1, h2.2⟩⟩

end Jeeves
